import Mathlib

/-!
Shallow embedding of the scoring / leaderboard engine of
`premierLeagueGame.py` (a football score-prediction game), together with
proofs of the specification claims about it.

Python values that flow into `calculate_points` (predicted and actual
scores) may be integers, strings (from JSON), `None`, or pandas `NaN`.
We embed them as `Value`.  Python's `int(...)` coercion is embedded as
`pyToInt : Value → Option Int` (`none` = the coercion raises
`ValueError`/`TypeError`).
-/

namespace PLGame

/-- A Python value as it can reach the scoring engine: an integer, a
string, `None`, or a float `NaN` (a missing pandas cell). -/
inductive Value where
  | vInt  : Int → Value
  | vStr  : String → Value
  | vNone : Value
  | vNan  : Value
  deriving DecidableEq, Repr

/-- Numeric value of a decimal digit character, `none` for any other
character (used to model Python `int` applied to a string). -/
def digitVal (c : Char) : Option Nat :=
  if '0' ≤ c ∧ c ≤ '9' then some (c.toNat - 48) else none

/-- Left-to-right accumulation of decimal digits; fails on the first
non-digit character. -/
def parseDigits : List Char → Nat → Option Nat
  | [], acc => some acc
  | c :: cs, acc =>
    match digitVal c with
    | some d => parseDigits cs (10 * acc + d)
    | none => none

/-- Python `int(s)` on a string: an optional leading minus sign followed
by a non-empty run of decimal digits; anything else raises (= `none`). -/
def pyParseInt (s : String) : Option Int :=
  match s.data with
  | [] => none
  | c :: cs =>
    if c = '-' then
      if cs = [] then none
      else (parseDigits cs 0).map (fun k => -(Int.ofNat k))
    else
      (parseDigits (c :: cs) 0).map (fun k => Int.ofNat k)

/-- Python `int(v)`: integers pass through, numeric strings parse,
`None` raises `TypeError`, `NaN` raises `ValueError`.  `none` models the
raised exception. -/
def pyToInt : Value → Option Int
  | Value.vInt n => some n
  | Value.vStr s => pyParseInt s
  | Value.vNone => none
  | Value.vNan => none

/-- Three-way outcome label of a score pair, as computed inside
`calculate_points`: `"draw"` if home == away, else `"home"` if
home > away, else `"away"`. -/
def resultLabel (home away : Int) : String :=
  if home = away then "draw" else if home > away then "home" else "away"

/-- `calculate_points(pred_home, pred_away, actual_home, actual_away)`:
coerce all four inputs with `int(...)` (any failure returns
`(0, False, False)` from the `except` clause); exact score match gives
`(5, True, True)`; otherwise a matching outcome label gives
`(2, False, True)`; otherwise `(0, False, False)`. -/
def calculate_points (pred_home pred_away actual_home actual_away : Value) :
    Int × Bool × Bool :=
  match pyToInt pred_home, pyToInt pred_away,
        pyToInt actual_home, pyToInt actual_away with
  | some ph, some pa, some ah, some aa =>
    if ph = ah ∧ pa = aa then
      (5, true, true)
    else if resultLabel ph pa = resultLabel ah aa then
      (2, false, true)
    else
      (0, false, false)
  | _, _, _, _ => (0, false, false)

/-- One row of the fixtures DataFrame.  `idx` is the DataFrame row index
(fixture identity within the catalog), `date` the kickoff timestamp
(`none` = `NaT`, a parse failure), and the scores are `none` while the
match is unplayed (pandas `NaN`). -/
structure Fixture where
  roundNumber : Int
  idx : Int
  homeTeam : String
  awayTeam : String
  date : Option Int
  homeScore : Option Int
  awayScore : Option Int
  deriving DecidableEq, Repr

/-- A player's predicted score pair for one fixture, the leaf value
`{home: ..., away: ...}` of the prediction store. -/
structure Pred where
  home : Value
  away : Value
  deriving DecidableEq, Repr

/-- A player's predictions for one round: fixture index → score pair
(a Python dict, embedded as an association list in insertion order). -/
abbrev RoundPreds := List (Int × Pred)

/-- One player's predictions: round number → round predictions. -/
abbrev PlayerPreds := List (Int × RoundPreds)

/-- The whole prediction store: player name → player predictions. -/
abbrev Store := List (String × PlayerPreds)

/-- `get_round_fixtures(df, round_num)`: the rows of the catalog whose
`Round Number` equals `round_num`, in order. -/
def get_round_fixtures (df : List Fixture) (round_num : Int) : List Fixture :=
  df.filter (fun f => f.roundNumber = round_num)

/-- `round_fixtures['Home Score'].notna().any()`: the round has at least
one fixture with a recorded actual home score. -/
def roundHasResults (rf : List Fixture) : Bool :=
  rf.any (fun f => f.homeScore.isSome)

/-- Scoring of a single predicted fixture inside the aggregation loops:
look the fixture index up in the round's fixtures
(`round_fixtures[round_fixtures.index == fixture_idx]`, then `.iloc[0]`);
a missing fixture or a fixture whose `Home Score` is `NaN` is skipped
(contributes `(0, false, false)`); otherwise both actual scores are
coerced with `int(...)` — `int(NaN)` on a missing `Away Score` raises,
which we model as `none` — and `calculate_points` is called.  The outer
`none` models an uncaught exception. -/
def fixtureScore (rf : List Fixture) (fixture_idx : Int) (pred : Pred) :
    Option (Int × Bool × Bool) :=
  match rf.find? (fun f => f.idx = fixture_idx) with
  | none => some (0, false, false)
  | some f =>
    match f.homeScore with
    | none => some (0, false, false)
    | some actual_home =>
      match f.awayScore with
      | none => none
      | some actual_away =>
        some (calculate_points pred.home pred.away
          (Value.vInt actual_home) (Value.vInt actual_away))

/-- Inner loop of `calculate_player_points` over one round's
predictions: sum of the awarded points, `none` if any fixture raises. -/
def roundPoints (rf : List Fixture) : RoundPreds → Option Int
  | [] => some 0
  | (i, pr) :: rest =>
    match fixtureScore rf i pr with
    | none => none
    | some (p, _, _) => (roundPoints rf rest).map (fun t => p + t)

/-- Round loop of `calculate_player_points`: walk the player's rounds in
insertion order, skip a round whose fixtures have no recorded home
score, otherwise add the round's points to the running total and record
them in the breakdown. -/
def playerRounds (df : List Fixture) :
    PlayerPreds → Option (Int × List (Int × Int))
  | [] => some (0, [])
  | (round_num, preds) :: rest =>
    let rf := get_round_fixtures df round_num
    if roundHasResults rf then
      match roundPoints rf preds with
      | none => none
      | some rp =>
        (playerRounds df rest).map
          (fun tb => (rp + tb.1, (round_num, rp) :: tb.2))
    else
      playerRounds df rest

/-- `calculate_player_points(player_name, fixtures_df, all_predictions)`:
`(0, {})` when the player is absent from the store, otherwise the total
points and the per-round breakdown.  `none` models an uncaught
exception from `int(NaN)` on a malformed away score. -/
def calculate_player_points (player_name : String) (fixtures_df : List Fixture)
    (all_predictions : Store) : Option (Int × List (Int × Int)) :=
  match all_predictions.lookup player_name with
  | none => some (0, [])
  | some player_predictions => playerRounds fixtures_df player_predictions

/-- A leaderboard entry as built by `update_leaderboard`: the
`'Exact Scores'`, `'Correct Results'` and `'Total Points'` values. -/
structure Entry where
  exactScores : Int
  correctResults : Int
  totalPoints : Int
  deriving DecidableEq, Repr

/-- Inner loop of `update_leaderboard` over one round's predictions:
accumulated `(points, exact count, correct-result count)`. -/
def roundTally (rf : List Fixture) :
    RoundPreds → Option (Int × Int × Int)
  | [] => some (0, 0, 0)
  | (i, pr) :: rest =>
    match fixtureScore rf i pr with
    | none => none
    | some (p, ex, cr) =>
      (roundTally rf rest).map
        (fun t => (p + t.1, (if ex then 1 else 0) + t.2.1,
                   (if cr then 1 else 0) + t.2.2))

/-- Round loop of `update_leaderboard` for one player: rounds whose
fixtures have no recorded home score are skipped; the rest contribute
points and counter increments. -/
def playerTally (df : List Fixture) :
    PlayerPreds → Option (Int × Int × Int)
  | [] => some (0, 0, 0)
  | (round_num, preds) :: rest =>
    let rf := get_round_fixtures df round_num
    if roundHasResults rf then
      match roundTally rf preds with
      | none => none
      | some t =>
        (playerTally df rest).map
          (fun u => (t.1 + u.1, t.2.1 + u.2.1, t.2.2 + u.2.2))
    else
      playerTally df rest

/-- `update_leaderboard(fixtures_df)` with the predictions it loads made
an explicit argument (the function reads them from the JSON file): one
entry per player of the store, in store order.  `none` models an
uncaught exception. -/
def update_leaderboard (fixtures_df : List Fixture) (all_predictions : Store) :
    Option (List (String × Entry)) :=
  match all_predictions with
  | [] => some []
  | (player, rounds) :: rest =>
    match playerTally fixtures_df rounds with
    | none => none
    | some t =>
      (update_leaderboard fixtures_df rest).map
        (fun lb => (player, Entry.mk t.2.1 t.2.2 t.1) :: lb)

/-- `is_round_locked(fixtures_df, round_num)` with the current time made
an explicit argument (`pd.Timestamp.now()` in the code): `False` when
the round has no fixtures or all kickoff dates are `NaT`; otherwise
locked iff `now >= round_fixtures['Date'].min()` (pandas `min` skips
`NaN` entries). -/
def is_round_locked (fixtures_df : List Fixture) (round_num : Int)
    (now : Int) : Bool :=
  let round_fixtures := get_round_fixtures fixtures_df round_num
  if round_fixtures.isEmpty ∨ round_fixtures.all (fun f => f.date.isNone) then
    false
  else
    match (round_fixtures.filterMap (fun f => f.date)).min? with
    | none => false
    | some first_match_time => decide (first_match_time ≤ now)

/-- Python dict assignment `d[k] = v` on a dict embedded as an
association list: replaces the value at the first occurrence of `k` in
place, or appends `(k, v)` at the end when `k` is absent. -/
def dictInsert {α β : Type} [DecidableEq α] (k : α) (v : β) :
    List (α × β) → List (α × β)
  | [] => [(k, v)]
  | (k', v') :: rest =>
    if k' = k then (k, v) :: rest else (k', v') :: dictInsert k v rest

/-- The `Submit Predictions` button handler: ensure the player has an
entry (`predictions[player_name] = {}` when absent), then assign the
whole round (`predictions[player_name][round_number] = predictions`),
replacing — not merging — that player's prediction set for the round. -/
def submitPredictions (store : Store) (player_name : String)
    (round_number : Int) (predictions : RoundPreds) : Store :=
  let store1 :=
    if (store.lookup player_name).isSome then store
    else dictInsert player_name [] store
  match store1.lookup player_name with
  | some rounds => dictInsert player_name
      (dictInsert round_number predictions rounds) store1
  | none => store1

/-- A player's stored prediction set for one round. -/
def lookupRound (store : Store) (player : String) (round_num : Int) :
    Option RoundPreds :=
  (store.lookup player).bind (fun rounds => rounds.lookup round_num)

/-- Python `str(n)` for a natural number: its decimal digits, most
significant first. -/
def pyStrNat (n : Nat) : String :=
  if n = 0 then "0"
  else String.mk (((Nat.digits 10 n).map Nat.digitChar).reverse)

/-- Python `str(n)` for an integer: a minus sign followed by the decimal
digits when negative, the plain decimal digits otherwise. -/
def pyStrInt (n : Int) : String :=
  if n < 0 then "-" ++ pyStrNat n.natAbs else pyStrNat n.toNat

/-- The prediction store as it sits in the JSON file: round-number and
fixture-index keys serialized as strings. -/
abbrev JsonStore := List (String × List (String × List (String × Pred)))

/-- `save_predictions()` restricted to its serialization step: convert
every round-number and fixture-index key to a string with `str(...)`
(the leaf `{home, away}` values are dumped unchanged). -/
def save_predictions (store : Store) : JsonStore :=
  store.map (fun pr =>
    (pr.1, pr.2.map (fun rd =>
      (pyStrInt rd.1, rd.2.map (fun fx => (pyStrInt fx.1, fx.2))))))

/-- Key conversion of one round's fixture map on load:
`{int(k): v for k, v in preds.items()}`; `none` when some key is not a
valid integer literal (the `int` call raises). -/
def loadFixtureKeys : List (String × Pred) → Option (List (Int × Pred))
  | [] => some []
  | (k, v) :: rest =>
    match pyParseInt k with
    | none => none
    | some i => (loadFixtureKeys rest).map (fun l => (i, v) :: l)

/-- Key conversion of one player's rounds on load:
`predictions[player][int(round_num)] = {...}`. -/
def loadRoundKeys : List (String × List (String × Pred)) →
    Option (List (Int × RoundPreds))
  | [] => some []
  | (k, v) :: rest =>
    match pyParseInt k, loadFixtureKeys v with
    | some r, some preds =>
      (loadRoundKeys rest).map (fun l => (r, preds) :: l)
    | _, _ => none

/-- `load_predictions_data()` restricted to its deserialization step:
parse every round-number and fixture-index key back to an integer with
`int(...)`.  `none` models an uncaught exception on a malformed key. -/
def load_predictions_data : JsonStore → Option Store
  | [] => some []
  | (player, rounds) :: rest =>
    match loadRoundKeys rounds with
    | none => none
    | some rds =>
      (load_predictions_data rest).map (fun l => (player, rds) :: l)

/-! ## Specification-side definitions and theorems -/

/-- The three-way outcome of a football score, as the specification
describes it: a draw if the scores are equal, otherwise a home win if
the home score is larger, otherwise an away win. -/
inductive SpecOutcome where
  | homeWin
  | draw
  | awayWin
  deriving DecidableEq, Repr

/-- The specification's outcome rule: `draw` if home==away, else `home`
if home>away, else `away`. -/
def specOutcome (home away : Int) : SpecOutcome :=
  if home = away then SpecOutcome.draw
  else if home > away then SpecOutcome.homeWin
  else SpecOutcome.awayWin

/-- The specification's point-assignment table for integer inputs. -/
def specScore (ph pa ah aa : Int) : Int × Bool × Bool :=
  if ph = ah ∧ pa = aa then (5, true, true)
  else if specOutcome ph pa = specOutcome ah aa then (2, false, true)
  else (0, false, false)

theorem resultLabel_eq_iff (h a h' a' : Int) :
    (resultLabel h a = resultLabel h' a') ↔
      (specOutcome h a = specOutcome h' a') := by
  unfold resultLabel specOutcome
  split_ifs <;> simp_all

/-- C1: on integer score pairs, `calculate_points` returns `(5, true,
true)` on an exact match, `(2, false, true)` when only the three-way
outcome label (draw / home / away) matches, and `(0, false, false)`
otherwise. -/
theorem calculate_points_spec (ph pa ah aa : Int) :
    calculate_points (Value.vInt ph) (Value.vInt pa)
      (Value.vInt ah) (Value.vInt aa) = specScore ph pa ah aa := by
  unfold calculate_points pyToInt specScore
  by_cases hex : ph = ah ∧ pa = aa
  · simp [hex]
  · by_cases hres : specOutcome ph pa = specOutcome ah aa
    · simp [hex, (resultLabel_eq_iff ph pa ah aa).mpr hres, hres]
    · simp [hex, hres, (resultLabel_eq_iff ph pa ah aa).not.mpr hres]

/-- C2: if any of the four inputs is missing (`None`/`NaN`) or not
coercible to an integer (so that Python's `int(...)` raises, i.e.
`pyToInt` is `none`), `calculate_points` returns `(0, false, false)`;
it is a total function on `Value`, so no exception escapes. -/
theorem calculate_points_bad_input (ph pa ah aa : Value)
    (h : pyToInt ph = none ∨ pyToInt pa = none ∨
         pyToInt ah = none ∨ pyToInt aa = none) :
    calculate_points ph pa ah aa = (0, false, false) := by
  unfold calculate_points
  cases hph : pyToInt ph <;> cases hpa : pyToInt pa <;>
    cases hah : pyToInt ah <;> cases haa : pyToInt aa <;>
      simp_all

/-- Witness for C2 at a concrete input: a `None` predicted home score
yields `(0, false, false)`. -/
theorem calculate_points_bad_input_w :
    calculate_points Value.vNone (Value.vInt 1)
      (Value.vInt 2) (Value.vInt 1) = (0, false, false) :=
  calculate_points_bad_input Value.vNone (Value.vInt 1)
    (Value.vInt 2) (Value.vInt 1) (Or.inl rfl)

/-- C3: `is_round_locked` returns `false` when the round has no
fixtures or none of its fixtures has a parseable kickoff time, and
otherwise returns `true` exactly when the current time is at or past
the minimum kickoff time over the round's fixtures. -/
theorem is_round_locked_spec (df : List Fixture) (round_num now : Int) :
    ((get_round_fixtures df round_num = [] ∨
        ∀ f ∈ get_round_fixtures df round_num, f.date = none) →
      is_round_locked df round_num now = false) ∧
    (∀ m, ((get_round_fixtures df round_num).filterMap
        (fun f => f.date)).min? = some m →
      (is_round_locked df round_num now = true ↔ m ≤ now)) := by
  constructor
  · intro h
    unfold is_round_locked
    rcases h with h | h
    · simp [h]
    · have hall : (get_round_fixtures df round_num).all
          (fun f => f.date.isNone) = true := by
        rw [List.all_eq_true]
        intro f hf
        simp [h f hf]
      simp [hall]
  · intro m hm
    have hne : (get_round_fixtures df round_num).filterMap
        (fun f => f.date) ≠ [] := by
      intro h0
      rw [h0] at hm
      simp at hm
    unfold is_round_locked
    have hcond : ¬((get_round_fixtures df round_num).isEmpty = true ∨
        (get_round_fixtures df round_num).all
          (fun f => f.date.isNone) = true) := by
      rintro (h | h)
      · exact hne (by simp_all [List.isEmpty_iff])
      · refine hne (List.filterMap_eq_nil_iff.mpr ?_)
        intro f hf
        have := (List.all_eq_true.mp h) f hf
        simpa [Option.isNone_iff_eq_none] using this
    simp only [hcond, if_false]
    rw [hm]
    simp

/-- Witness for C3 at concrete inputs: a round with one dated fixture
is locked at a time past the kickoff, and an empty round is never
locked. -/
theorem is_round_locked_spec_w :
    is_round_locked [Fixture.mk 1 0 "A" "B" (some 10) none none] 1 12
      = true ∧
    is_round_locked ([] : List Fixture) 1 12 = false :=
  ⟨((is_round_locked_spec [Fixture.mk 1 0 "A" "B" (some 10) none none]
      1 12).2 10 rfl).mpr (by decide),
   (is_round_locked_spec ([] : List Fixture) 1 12).1 (Or.inl rfl)⟩

/-- C8: for fixed fixture data, `is_round_locked` is monotone in the
current time: once a round is locked at time `t`, it is locked at every
time `t' ≥ t`. -/
theorem is_round_locked_mono (df : List Fixture) (round_num : Int)
    (t t' : Int) (hlock : is_round_locked df round_num t = true)
    (ht : t ≤ t') : is_round_locked df round_num t' = true := by
  simp only [is_round_locked] at hlock ⊢
  split at hlock
  · simp at hlock
  · rename_i hcond
    split at hlock
    · simp at hlock
    · rename_i m hm
      have hmt : m ≤ t := of_decide_eq_true hlock
      try rw [if_neg hcond]
      try rw [hm]
      exact decide_eq_true (le_trans hmt ht)

/-- Witness for C8 at a concrete input: the singleton round locked at
time 10 stays locked at time 20. -/
theorem is_round_locked_mono_w :
    is_round_locked [Fixture.mk 1 0 "A" "B" (some 10) none none] 1 20
      = true :=
  is_round_locked_mono [Fixture.mk 1 0 "A" "B" (some 10) none none] 1
    10 20 (by decide) (by decide)

theorem lookup_dictInsert_self {α β : Type} [DecidableEq α] (k : α)
    (v : β) (l : List (α × β)) : (dictInsert k v l).lookup k = some v := by
  induction l with
  | nil => simp [dictInsert, List.lookup]
  | cons hd tl ih =>
    obtain ⟨a, b⟩ := hd
    by_cases hk : a = k
    · subst hk
      simp [dictInsert, List.lookup]
    · have hbeq : (k == a) = false := beq_eq_false_iff_ne.mpr (Ne.symm hk)
      simp [dictInsert, hk, List.lookup, hbeq, ih]

theorem lookup_dictInsert_ne {α β : Type} [DecidableEq α] {k k' : α}
    (v : β) (l : List (α × β)) (h : k' ≠ k) :
    (dictInsert k v l).lookup k' = l.lookup k' := by
  induction l with
  | nil =>
    simp [dictInsert, List.lookup, beq_eq_false_iff_ne.mpr h]
  | cons hd tl ih =>
    obtain ⟨a, b⟩ := hd
    by_cases hk : a = k
    · subst hk
      simp [dictInsert, List.lookup, beq_eq_false_iff_ne.mpr h]
    · cases hbeq : k' == a <;>
        simp [dictInsert, hk, List.lookup, hbeq, ih]

theorem dictInsert_dictInsert {α β : Type} [DecidableEq α] (k : α)
    (v w : β) (l : List (α × β)) :
    dictInsert k v (dictInsert k w l) = dictInsert k v l := by
  induction l with
  | nil => simp [dictInsert]
  | cons hd tl ih =>
    by_cases hk : hd.1 = k
    · simp [dictInsert, hk]
    · simp [dictInsert, hk, ih]

theorem submitPredictions_eq (store : Store) (p : String) (r : Int)
    (newPreds : RoundPreds) :
    submitPredictions store p r newPreds =
      dictInsert p (dictInsert r newPreds
        ((store.lookup p).getD [])) store := by
  unfold submitPredictions
  cases hp : store.lookup p with
  | none =>
    simp only [hp, Option.isSome_none, Bool.false_eq_true, if_false,
      lookup_dictInsert_self, Option.getD_none]
    rw [dictInsert_dictInsert]
  | some rounds =>
    simp [hp]

/-- C7: submitting a round's predictions fully replaces that player's
prediction set for the round (so fixtures omitted from a resubmission
are dropped), while every other round of that player and every other
player's predictions are unchanged. -/
theorem submitPredictions_spec (store : Store) (p : String) (r : Int)
    (newPreds : RoundPreds) :
    lookupRound (submitPredictions store p r newPreds) p r =
        some newPreds ∧
    (∀ i, (lookupRound (submitPredictions store p r newPreds) p r).bind
        (fun m => m.lookup i) = newPreds.lookup i) ∧
    (∀ r', r' ≠ r →
        lookupRound (submitPredictions store p r newPreds) p r' =
          lookupRound store p r') ∧
    (∀ p', p' ≠ p →
        (submitPredictions store p r newPreds).lookup p' =
          store.lookup p') := by
  rw [submitPredictions_eq]
  refine ⟨?_, ?_, ?_, ?_⟩
  · unfold lookupRound
    rw [lookup_dictInsert_self]
    simp [lookup_dictInsert_self]
  · intro i
    unfold lookupRound
    rw [lookup_dictInsert_self]
    simp [lookup_dictInsert_self]
  · intro r' hr'
    unfold lookupRound
    rw [lookup_dictInsert_self]
    cases hp : store.lookup p with
    | none => simp [lookup_dictInsert_ne _ _ hr']
    | some rounds => simp [lookup_dictInsert_ne _ _ hr']
  · intro p' hp'
    exact lookup_dictInsert_ne _ _ hp'

/-- Witness for C7 at a concrete store: resubmitting round 1 with a
single fixture drops the other fixture, leaves round 2 and player "q"
intact. -/
theorem submitPredictions_spec_w :
    lookupRound (submitPredictions
        [("p", [(1, [(0, Pred.mk (Value.vInt 2) (Value.vInt 1)),
                     (3, Pred.mk (Value.vInt 0) (Value.vInt 0))]),
                (2, [(0, Pred.mk (Value.vInt 1) (Value.vInt 1))])]),
         ("q", [(1, [(0, Pred.mk (Value.vInt 4) (Value.vInt 4))])])]
        "p" 1 [(0, Pred.mk (Value.vInt 9) (Value.vInt 9))])
      "p" 1 = some [(0, Pred.mk (Value.vInt 9) (Value.vInt 9))] ∧
    lookupRound (submitPredictions
        [("p", [(1, [(0, Pred.mk (Value.vInt 2) (Value.vInt 1)),
                     (3, Pred.mk (Value.vInt 0) (Value.vInt 0))]),
                (2, [(0, Pred.mk (Value.vInt 1) (Value.vInt 1))])]),
         ("q", [(1, [(0, Pred.mk (Value.vInt 4) (Value.vInt 4))])])]
        "p" 1 [(0, Pred.mk (Value.vInt 9) (Value.vInt 9))])
      "p" 2 = lookupRound
        [("p", [(1, [(0, Pred.mk (Value.vInt 2) (Value.vInt 1)),
                     (3, Pred.mk (Value.vInt 0) (Value.vInt 0))]),
                (2, [(0, Pred.mk (Value.vInt 1) (Value.vInt 1))])]),
         ("q", [(1, [(0, Pred.mk (Value.vInt 4) (Value.vInt 4))])])]
        "p" 2 ∧
    (submitPredictions
        [("p", [(1, [(0, Pred.mk (Value.vInt 2) (Value.vInt 1)),
                     (3, Pred.mk (Value.vInt 0) (Value.vInt 0))]),
                (2, [(0, Pred.mk (Value.vInt 1) (Value.vInt 1))])]),
         ("q", [(1, [(0, Pred.mk (Value.vInt 4) (Value.vInt 4))])])]
        "p" 1 [(0, Pred.mk (Value.vInt 9) (Value.vInt 9))]).lookup "q" =
      ([("p", [(1, [(0, Pred.mk (Value.vInt 2) (Value.vInt 1)),
                     (3, Pred.mk (Value.vInt 0) (Value.vInt 0))]),
                (2, [(0, Pred.mk (Value.vInt 1) (Value.vInt 1))])]),
         ("q", [(1, [(0, Pred.mk (Value.vInt 4) (Value.vInt 4))])])] :
        Store).lookup "q" :=
  ⟨(submitPredictions_spec _ "p" 1 _).1,
   (submitPredictions_spec _ "p" 1 _).2.2.1 2 (by decide),
   (submitPredictions_spec _ "p" 1 _).2.2.2 "q" (by decide)⟩

theorem calculate_points_shape (a b c d : Value) :
    calculate_points a b c d = (5, true, true) ∨
    calculate_points a b c d = (2, false, true) ∨
    calculate_points a b c d = (0, false, false) := by
  unfold calculate_points
  cases pyToInt a <;> cases pyToInt b <;> cases pyToInt c <;>
    cases pyToInt d <;> (try dsimp only) <;> (try split_ifs) <;> simp

theorem fixtureScore_shape (rf : List Fixture) (i : Int) (pr : Pred)
    (t : Int × Bool × Bool) (h : fixtureScore rf i pr = some t) :
    t = (5, true, true) ∨ t = (2, false, true) ∨ t = (0, false, false) := by
  unfold fixtureScore at h
  split at h
  · cases h; simp
  · split at h
    · cases h; simp
    · split at h
      · cases h
      · cases h
        exact calculate_points_shape _ _ _ _

theorem roundTally_inv (rf : List Fixture) (preds : RoundPreds) :
    ∀ t, roundTally rf preds = some t →
      t.1 = 3 * t.2.1 + 2 * t.2.2 ∧ t.2.1 ≤ t.2.2 ∧
        0 ≤ t.2.1 ∧ 0 ≤ t.2.2 := by
  induction preds with
  | nil =>
    intro t h
    cases h
    norm_num
  | cons hd tl ih =>
    intro t h
    obtain ⟨i, pr⟩ := hd
    unfold roundTally at h
    split at h
    · exact absurd h (by simp)
    · rename_i p ex cr hfs
      cases hrt : roundTally rf tl with
      | none => rw [hrt] at h; exact absurd h (by simp)
      | some u =>
        rw [hrt, Option.map_some'] at h
        cases h
        have hu := ih u hrt
        rcases fixtureScore_shape rf i pr (p, ex, cr) hfs
          with hs | hs | hs <;>
            (simp only [Prod.mk.injEq] at hs
             obtain ⟨rfl, rfl, rfl⟩ := hs
             simp
             omega)

theorem playerTally_inv (df : List Fixture) (rounds : PlayerPreds) :
    ∀ t, playerTally df rounds = some t →
      t.1 = 3 * t.2.1 + 2 * t.2.2 ∧ t.2.1 ≤ t.2.2 ∧
        0 ≤ t.2.1 ∧ 0 ≤ t.2.2 := by
  induction rounds with
  | nil =>
    intro t h
    cases h
    norm_num
  | cons hd tl ih =>
    intro t h
    obtain ⟨r, preds⟩ := hd
    simp only [playerTally] at h
    split at h
    · split at h
      · exact absurd h (by simp)
      · rename_i s hrt
        cases hpt : playerTally df tl with
        | none => rw [hpt] at h; exact absurd h (by simp)
        | some u =>
          rw [hpt, Option.map_some'] at h
          cases h
          have hs := roundTally_inv _ _ s hrt
          have hu := ih u hpt
          simp
          omega
    · exact ih t h

/-- C9 (invariant): every leaderboard entry satisfies
`Total Points = 3 * Exact Scores + 2 * Correct Results`, hence
`Exact Scores ≤ Correct Results`, and all three values are
non-negative. -/
theorem update_leaderboard_entry_inv (df : List Fixture) (store : Store)
    (lb : List (String × Entry))
    (hlb : update_leaderboard df store = some lb) (p : String) (e : Entry)
    (he : (p, e) ∈ lb) :
    e.totalPoints = 3 * e.exactScores + 2 * e.correctResults ∧
    e.exactScores ≤ e.correctResults ∧
    0 ≤ e.exactScores ∧ 0 ≤ e.correctResults ∧ 0 ≤ e.totalPoints := by
  induction store generalizing lb with
  | nil =>
    cases hlb
    cases he
  | cons hd rest ih =>
    obtain ⟨q, rds⟩ := hd
    unfold update_leaderboard at hlb
    cases hpt : playerTally df rds with
    | none => rw [hpt] at hlb; cases hlb
    | some t =>
      rw [hpt] at hlb
      cases hul : update_leaderboard df rest with
      | none => rw [hul] at hlb; cases hlb
      | some lb' =>
        rw [hul] at hlb
        cases hlb
        rcases List.mem_cons.mp he with hhd | htl
        · have ht := playerTally_inv df rds t hpt
          cases hhd
          simp only [Entry.exactScores, Entry.correctResults,
            Entry.totalPoints]
          omega
        · exact ih lb' hul htl

/-- Witness for C9 at a concrete input: the spec's scenario (one
fixture 2-1, prediction 2-1) gives the entry `(1, 1, 5)`, which
satisfies the invariant. -/
theorem update_leaderboard_entry_inv_w :
    (Entry.mk 1 1 5).totalPoints =
        3 * (Entry.mk 1 1 5).exactScores +
          2 * (Entry.mk 1 1 5).correctResults ∧
    (Entry.mk 1 1 5).exactScores ≤ (Entry.mk 1 1 5).correctResults ∧
    0 ≤ (Entry.mk 1 1 5).exactScores ∧
    0 ≤ (Entry.mk 1 1 5).correctResults ∧
    0 ≤ (Entry.mk 1 1 5).totalPoints :=
  update_leaderboard_entry_inv
    [Fixture.mk 1 0 "A" "B" none (some 2) (some 1)]
    [("p", [(1, [(0, Pred.mk (Value.vInt 2) (Value.vInt 1))])])]
    [("p", Entry.mk 1 1 5)] (by decide) "p" (Entry.mk 1 1 5)
    (List.mem_singleton.mpr rfl)

theorem roundPoints_eq_tally (rf : List Fixture) (preds : RoundPreds) :
    roundPoints rf preds = (roundTally rf preds).map (fun t => t.1) := by
  induction preds with
  | nil => rfl
  | cons hd tl ih =>
    obtain ⟨i, pr⟩ := hd
    cases hfs : fixtureScore rf i pr with
    | none => simp [roundPoints, roundTally, hfs]
    | some s =>
      obtain ⟨p, ex, cr⟩ := s
      simp only [roundPoints, roundTally, hfs, ih]
      cases roundTally rf tl <;> simp

theorem playerRounds_fst_eq_tally (df : List Fixture)
    (rounds : PlayerPreds) :
    (playerRounds df rounds).map (fun tb => tb.1) =
      (playerTally df rounds).map (fun t => t.1) := by
  induction rounds with
  | nil => rfl
  | cons hd tl ih =>
    obtain ⟨r, preds⟩ := hd
    simp only [playerRounds, playerTally]
    by_cases hres :
        roundHasResults (get_round_fixtures df r) = true
    · simp only [hres, if_true, roundPoints_eq_tally]
      cases hrt : roundTally (get_round_fixtures df r) preds with
      | none => simp
      | some t =>
        simp only [Option.map_some']
        cases hpr : playerRounds df tl with
        | none =>
          rw [hpr] at ih
          cases hpt : playerTally df tl with
          | none => simp
          | some u => rw [hpt] at ih; exact absurd ih (by simp)
        | some tb =>
          rw [hpr] at ih
          cases hpt : playerTally df tl with
          | none => rw [hpt] at ih; exact absurd ih (by simp)
          | some u =>
            rw [hpt] at ih
            simp only [Option.map_some', Option.some.injEq] at ih
            simp [ih]
    · simp only [hres, if_false, Bool.false_eq_true]
      exact ih

theorem playerRounds_total_eq_sum (df : List Fixture)
    (rounds : PlayerPreds) :
    ∀ total bd, playerRounds df rounds = some (total, bd) →
      total = (bd.map Prod.snd).sum := by
  induction rounds with
  | nil =>
    intro total bd h
    cases h
    simp
  | cons hd tl ih =>
    intro total bd h
    obtain ⟨r, preds⟩ := hd
    simp only [playerRounds] at h
    split at h
    · split at h
      · exact absurd h (by simp)
      · rename_i rp hrp
        cases hpr : playerRounds df tl with
        | none => rw [hpr] at h; exact absurd h (by simp)
        | some tb =>
          obtain ⟨t0, b0⟩ := tb
          rw [hpr, Option.map_some'] at h
          cases h
          simp [ih t0 b0 hpr]
    · exact ih total bd h

theorem update_leaderboard_lookup (df : List Fixture) :
    ∀ (store : Store) (lb : List (String × Entry)),
      update_leaderboard df store = some lb →
      ∀ p rounds, store.lookup p = some rounds →
        ∃ t, playerTally df rounds = some t ∧
          lb.lookup p = some (Entry.mk t.2.1 t.2.2 t.1) := by
  intro store
  induction store with
  | nil =>
    intro lb _ p rounds hp
    exact absurd hp (by simp [List.lookup])
  | cons hd rest ih =>
    intro lb hlb p rounds hp
    obtain ⟨q, rds⟩ := hd
    unfold update_leaderboard at hlb
    split at hlb
    · exact absurd hlb (by simp)
    · rename_i t hpt
      cases hul : update_leaderboard df rest with
      | none => rw [hul] at hlb; exact absurd hlb (by simp)
      | some lb' =>
        rw [hul, Option.map_some'] at hlb
        cases hlb
        cases hbeq : p == q with
        | true =>
          have hpq : p = q := eq_of_beq hbeq
          simp only [List.lookup, hbeq] at hp
          cases hp
          exact ⟨t, hpt, by simp [List.lookup, hbeq]⟩
        | false =>
          simp only [List.lookup, hbeq] at hp
          obtain ⟨t', h1, h2⟩ := ih lb' hul p rounds hp
          exact ⟨t', h1, by simp [List.lookup, hbeq, h2]⟩

/-- C4: for every player present in the predictions store, the
`'Total Points'` value computed by `update_leaderboard` equals the
total returned by `calculate_player_points` on the same fixture and
prediction data, and that total equals the sum of the per-round
breakdown values. -/
theorem update_leaderboard_total_eq (df : List Fixture) (store : Store)
    (lb : List (String × Entry))
    (hlb : update_leaderboard df store = some lb)
    (p : String) (rounds : PlayerPreds)
    (hp : store.lookup p = some rounds) :
    ∃ e total bd, lb.lookup p = some e ∧
      calculate_player_points p df store = some (total, bd) ∧
      e.totalPoints = total ∧ total = (bd.map Prod.snd).sum := by
  obtain ⟨t, hpt, hlk⟩ :=
    update_leaderboard_lookup df store lb hlb p rounds hp
  have hfst := playerRounds_fst_eq_tally df rounds
  rw [hpt, Option.map_some'] at hfst
  cases hpr : playerRounds df rounds with
  | none => rw [hpr] at hfst; exact absurd hfst (by simp)
  | some tb =>
    obtain ⟨total, bd⟩ := tb
    rw [hpr, Option.map_some'] at hfst
    have htot : total = t.1 := by simpa using hfst
    refine ⟨Entry.mk t.2.1 t.2.2 t.1, total, bd, hlk, ?_, ?_, ?_⟩
    · simp only [calculate_player_points, hp]
      exact hpr
    · simp [htot]
    · exact playerRounds_total_eq_sum df rounds total bd hpr

/-- Witness for C4 at a concrete input: the spec's scenario (fixture
2-1, prediction 2-1) where the leaderboard total, the player total and
the breakdown sum all equal 5. -/
theorem update_leaderboard_total_eq_w :
    ∃ e total bd,
      ([("p", Entry.mk 1 1 5)] : List (String × Entry)).lookup "p"
          = some e ∧
      calculate_player_points "p"
          [Fixture.mk 1 0 "A" "B" none (some 2) (some 1)]
          [("p", [(1, [(0, Pred.mk (Value.vInt 2) (Value.vInt 1))])])]
        = some (total, bd) ∧
      e.totalPoints = total ∧ total = (bd.map Prod.snd).sum :=
  update_leaderboard_total_eq
    [Fixture.mk 1 0 "A" "B" none (some 2) (some 1)]
    [("p", [(1, [(0, Pred.mk (Value.vInt 2) (Value.vInt 1))])])]
    [("p", Entry.mk 1 1 5)] (by decide) "p"
    [(1, [(0, Pred.mk (Value.vInt 2) (Value.vInt 1))])] (by decide)

/-- C6: a round none of whose fixtures has a recorded actual score is
skipped entirely by aggregation — it contributes nothing to the player
totals, the exact/correct counters, or the per-round breakdown; and
within a scored round, a predicted fixture that is absent from the
catalog or whose actual score is not recorded contributes zero and is
skipped without error or penalty. -/
theorem aggregation_skip_spec (df : List Fixture) :
    (∀ (r : Int) (preds : RoundPreds) (rest : PlayerPreds),
      (∀ f ∈ get_round_fixtures df r,
          f.homeScore = none ∧ f.awayScore = none) →
      playerRounds df ((r, preds) :: rest) = playerRounds df rest ∧
      playerTally df ((r, preds) :: rest) = playerTally df rest) ∧
    (∀ (rf : List Fixture) (i : Int) (pr : Pred) (rest : RoundPreds),
      roundHasResults rf = true →
      (rf.find? (fun f => f.idx = i) = none ∨
        ∃ f, rf.find? (fun f => f.idx = i) = some f ∧
          f.homeScore = none ∧ f.awayScore = none) →
      roundPoints rf ((i, pr) :: rest) = roundPoints rf rest ∧
      roundTally rf ((i, pr) :: rest) = roundTally rf rest) := by
  constructor
  · intro r preds rest h
    have hres : roundHasResults (get_round_fixtures df r) = false := by
      simp only [roundHasResults, List.any_eq_false]
      intro f hf
      simp [(h f hf).1]
    constructor
    · simp [playerRounds, hres]
    · simp [playerTally, hres]
  · intro rf i pr rest _ h
    have hfs : fixtureScore rf i pr = some (0, false, false) := by
      rcases h with hnone | ⟨f, hf, hh, _⟩
      · simp [fixtureScore, hnone]
      · simp [fixtureScore, hf, hh]
    constructor
    · simp only [roundPoints, hfs]
      cases roundPoints rf rest <;> simp
    · simp only [roundTally, hfs]
      cases roundTally rf rest <;> simp

/-- Witness for C6 at concrete inputs: a pending round contributes
nothing, and a prediction for an absent fixture index is skipped. -/
theorem aggregation_skip_spec_w :
    (playerRounds [Fixture.mk 1 0 "A" "B" none none none]
        [(1, [(0, Pred.mk (Value.vInt 2) (Value.vInt 1))])] =
      playerRounds [Fixture.mk 1 0 "A" "B" none none none] [] ∧
     playerTally [Fixture.mk 1 0 "A" "B" none none none]
        [(1, [(0, Pred.mk (Value.vInt 2) (Value.vInt 1))])] =
      playerTally [Fixture.mk 1 0 "A" "B" none none none] []) ∧
    (roundPoints [Fixture.mk 1 0 "A" "B" none (some 2) (some 1)]
        [(5, Pred.mk (Value.vInt 2) (Value.vInt 1))] =
      roundPoints [Fixture.mk 1 0 "A" "B" none (some 2) (some 1)] [] ∧
     roundTally [Fixture.mk 1 0 "A" "B" none (some 2) (some 1)]
        [(5, Pred.mk (Value.vInt 2) (Value.vInt 1))] =
      roundTally [Fixture.mk 1 0 "A" "B" none (some 2) (some 1)] []) :=
  ⟨(aggregation_skip_spec [Fixture.mk 1 0 "A" "B" none none none]).1
      1 [(0, Pred.mk (Value.vInt 2) (Value.vInt 1))] [] (by decide),
   (aggregation_skip_spec [Fixture.mk 1 0 "A" "B" none none none]).2
      [Fixture.mk 1 0 "A" "B" none (some 2) (some 1)] 5
      (Pred.mk (Value.vInt 2) (Value.vInt 1)) [] (by decide)
      (Or.inl (by decide))⟩

/-- C5 counterexample: a fixture with a recorded home score but a
missing away score is not excluded from scoring — aggregation raises an
uncaught `ValueError` from `int(NaN)` (modelled as `none`), both in
`update_leaderboard` and in `calculate_player_points`, contradicting
the claim that no exception is raised. -/
theorem aggregation_half_score_cex :
    update_leaderboard [Fixture.mk 1 0 "A" "B" none (some 2) none]
        [("p", [(1, [(0, Pred.mk (Value.vInt 1) (Value.vInt 0))])])]
      = none ∧
    calculate_player_points "p"
        [Fixture.mk 1 0 "A" "B" none (some 2) none]
        [("p", [(1, [(0, Pred.mk (Value.vInt 1) (Value.vInt 0))])])]
      = none := by
  decide

/-- C5 amended: a fixture whose recorded home score is missing is
treated as not yet played — excluded from scoring with no exception —
but a fixture with a recorded home score and a missing away score makes
aggregation raise an uncaught exception (`int(NaN)`), modelled as
`none`. -/
theorem aggregation_missing_score_amended (rf : List Fixture) (i : Int)
    (pr : Pred) (rest : RoundPreds) (f : Fixture)
    (hf : rf.find? (fun g => g.idx = i) = some f) :
    (f.homeScore = none →
      roundTally rf ((i, pr) :: rest) = roundTally rf rest ∧
      roundPoints rf ((i, pr) :: rest) = roundPoints rf rest) ∧
    (f.homeScore ≠ none → f.awayScore = none →
      roundTally rf ((i, pr) :: rest) = none ∧
      roundPoints rf ((i, pr) :: rest) = none) := by
  constructor
  · intro hh
    have hfs : fixtureScore rf i pr = some (0, false, false) := by
      simp [fixtureScore, hf, hh]
    constructor
    · simp only [roundTally, hfs]
      cases roundTally rf rest <;> simp
    · simp only [roundPoints, hfs]
      cases roundPoints rf rest <;> simp
  · intro hh ha
    obtain ⟨ah, hah⟩ := Option.ne_none_iff_exists'.mp hh
    have hfs : fixtureScore rf i pr = none := by
      simp [fixtureScore, hf, hah, ha]
    constructor
    · simp [roundTally, hfs]
    · simp [roundPoints, hfs]

/-- Witness for the amended C5 at concrete inputs: a fixture with no
home score is skipped; one with a home score but no away score makes
the round tally raise. -/
theorem aggregation_missing_score_amended_w :
    (roundTally [Fixture.mk 1 0 "A" "B" none none (some 1)]
        [(0, Pred.mk (Value.vInt 1) (Value.vInt 0))] =
      roundTally [Fixture.mk 1 0 "A" "B" none none (some 1)] [] ∧
     roundPoints [Fixture.mk 1 0 "A" "B" none none (some 1)]
        [(0, Pred.mk (Value.vInt 1) (Value.vInt 0))] =
      roundPoints [Fixture.mk 1 0 "A" "B" none none (some 1)] []) ∧
    (roundTally [Fixture.mk 1 0 "A" "B" none (some 2) none]
        [(0, Pred.mk (Value.vInt 1) (Value.vInt 0))] = none ∧
     roundPoints [Fixture.mk 1 0 "A" "B" none (some 2) none]
        [(0, Pred.mk (Value.vInt 1) (Value.vInt 0))] = none) :=
  ⟨(aggregation_missing_score_amended
      [Fixture.mk 1 0 "A" "B" none none (some 1)] 0
      (Pred.mk (Value.vInt 1) (Value.vInt 0)) []
      (Fixture.mk 1 0 "A" "B" none none (some 1)) (by decide)).1 rfl,
   (aggregation_missing_score_amended
      [Fixture.mk 1 0 "A" "B" none (some 2) none] 0
      (Pred.mk (Value.vInt 1) (Value.vInt 0)) []
      (Fixture.mk 1 0 "A" "B" none (some 2) none) (by decide)).2
      (by decide) rfl⟩

theorem digitVal_digitChar (d : Nat) (h : d < 10) :
    digitVal (Nat.digitChar d) = some d := by
  interval_cases d <;> decide

theorem digitChar_ne_dash (d : Nat) (h : d < 10) :
    Nat.digitChar d ≠ '-' := by
  interval_cases d <;> decide

theorem parseDigits_map (L : List Nat) (h : ∀ d ∈ L, d < 10) :
    ∀ acc, parseDigits (L.map Nat.digitChar) acc =
      some (L.foldl (fun a d => 10 * a + d) acc) := by
  induction L with
  | nil => intro acc; simp [parseDigits]
  | cons d ds ih =>
    intro acc
    have hd : digitVal (Nat.digitChar d) = some d :=
      digitVal_digitChar d (h d (by simp))
    simp only [List.map_cons, parseDigits, hd, List.foldl_cons]
    exact ih (fun x hx => h x (by simp [hx])) _

theorem foldl_reverse_eq_ofDigits (L : List Nat) :
    L.reverse.foldl (fun a d => 10 * a + d) 0 = Nat.ofDigits 10 L := by
  induction L with
  | nil => simp [Nat.ofDigits]
  | cons d ds ih =>
    simp [List.reverse_cons, List.foldl_append, ih, Nat.ofDigits_cons]
    ring

theorem parseDigits_pyStrNat (m : Nat) :
    parseDigits (pyStrNat m).data 0 = some m := by
  by_cases hm : m = 0
  · subst hm
    rfl
  · unfold pyStrNat
    rw [if_neg hm]
    show parseDigits (((Nat.digits 10 m).map Nat.digitChar).reverse) 0
      = some m
    rw [← List.map_reverse]
    rw [parseDigits_map ((Nat.digits 10 m).reverse)
      (fun d hd => Nat.digits_lt_base (by norm_num)
        (List.mem_reverse.mp hd))]
    rw [foldl_reverse_eq_ofDigits, Nat.ofDigits_digits]

theorem pyStrNat_data_ne_nil (m : Nat) : (pyStrNat m).data ≠ [] := by
  by_cases hm : m = 0
  · subst hm
    decide
  · unfold pyStrNat
    rw [if_neg hm]
    simp [Nat.digits_ne_nil_iff_ne_zero.mpr hm]

theorem pyStrNat_head (m : Nat) :
    ∃ c cs, (pyStrNat m).data = c :: cs ∧ c ≠ '-' := by
  by_cases hm : m = 0
  · exact ⟨'0', [], by subst hm; rfl, by decide⟩
  · have hne : (Nat.digits 10 m).reverse ≠ [] := by
      simp [Nat.digits_ne_nil_iff_ne_zero.mpr hm]
    cases hrev : (Nat.digits 10 m).reverse with
    | nil => exact absurd hrev hne
    | cons d ds =>
      refine ⟨Nat.digitChar d, ds.map Nat.digitChar, ?_, ?_⟩
      · unfold pyStrNat
        rw [if_neg hm]
        show ((Nat.digits 10 m).map Nat.digitChar).reverse =
          Nat.digitChar d :: ds.map Nat.digitChar
        rw [← List.map_reverse, hrev, List.map_cons]
      · have hd : d ∈ Nat.digits 10 m := by
          rw [← List.mem_reverse, hrev]
          simp
        exact digitChar_ne_dash d (Nat.digits_lt_base (by norm_num) hd)

theorem pyParseInt_pyStrInt (n : Int) :
    pyParseInt (pyStrInt n) = some n := by
  unfold pyStrInt
  split
  · rename_i hneg
    have hdata : ("-" ++ pyStrNat n.natAbs).data =
        '-' :: (pyStrNat n.natAbs).data := by
      rw [String.data_append]
      rfl
    simp only [pyParseInt, hdata, if_pos rfl,
      if_neg (pyStrNat_data_ne_nil n.natAbs), parseDigits_pyStrNat,
      Option.map_some', Int.ofNat_eq_coe, Option.some.injEq, if_true]
    omega
  · rename_i hpos
    obtain ⟨c, cs, hdata, hc⟩ := pyStrNat_head n.toNat
    simp only [pyParseInt, hdata, if_neg hc]
    rw [← hdata, parseDigits_pyStrNat, Option.map_some']
    simp only [Int.ofNat_eq_coe, Option.some.injEq]
    omega

theorem loadFixtureKeys_save (l : List (Int × Pred)) :
    loadFixtureKeys (l.map (fun fx => (pyStrInt fx.1, fx.2))) = some l := by
  induction l with
  | nil => rfl
  | cons hd tl ih =>
    simp only [List.map_cons, loadFixtureKeys, pyParseInt_pyStrInt, ih,
      Option.map_some']

theorem loadRoundKeys_save (l : List (Int × RoundPreds)) :
    loadRoundKeys (l.map (fun rd =>
      (pyStrInt rd.1, rd.2.map (fun fx => (pyStrInt fx.1, fx.2)))))
      = some l := by
  induction l with
  | nil => rfl
  | cons hd tl ih =>
    simp only [List.map_cons, loadRoundKeys, pyParseInt_pyStrInt,
      loadFixtureKeys_save, ih, Option.map_some']

/-- C10: saving a prediction store with `save_predictions` (round and
fixture keys serialized with `str(...)`) and reloading it with
`load_predictions_data` (keys parsed back with `int(...)`) yields the
original store: the string/integer key serialization round-trips. -/
theorem load_save_predictions_roundtrip (store : Store) :
    load_predictions_data (save_predictions store) = some store := by
  induction store with
  | nil => rfl
  | cons hd tl ih =>
    simp only [save_predictions, List.map_cons] at ih ⊢
    simp only [load_predictions_data, loadRoundKeys_save, ih,
      Option.map_some']

end PLGame
